import Mathlib

/-!
# Terraform provider for Grafana: resource handlers

A shallow embedding of `grafana/resource_amixr_integration.go` and
`grafana/resource_cloud_stack.go`.

* Go pointers (`*string`, `*aapi.SlackTemplate`, ...) are `Option` values, `none` being `nil`.
* A Go run-time panic (nil pointer dereference, failed type assertion) is an explicit
  `Except.error`, so "completes without failure" is `Except.ok`.
* A Go `error` is represented by its `Error()` text.
* The remote API clients and the HTTP transport are records of functions; every handler
  returns, next to its result, the list of remote calls it made, in order.
-/

namespace Grafana

/-! ## Amixr integration: remote types (`aapi`) -/

/-- The two run-time failures the mapping functions can hit. -/
inductive Panic where
  | nilDeref
  | typeAssert
  deriving DecidableEq, Repr

/-- The `aapi.SlackTemplate` struct: three `*string` fields. -/
structure SlackTemplate where
  Title : Option String
  Message : Option String
  ImageURL : Option String
  deriving DecidableEq, Repr

/-- The `aapi.Templates` struct: two `*string` fields and a `*SlackTemplate`. -/
structure Templates where
  GroupingKey : Option String
  ResolveSignal : Option String
  Slack : Option SlackTemplate
  deriving DecidableEq, Repr

/-- The `aapi.SlackRoute` struct. -/
structure SlackRoute where
  ChannelId : Option String
  deriving DecidableEq, Repr

/-- The `aapi.DefaultRoute` struct: `ID` is a plain string, the other two are pointers. -/
structure DefaultRoute where
  ID : String
  EscalationChainId : Option String
  SlackRoute : Option SlackRoute
  deriving DecidableEq, Repr

/-! ## Amixr integration: what the flatten functions build

The maps built by the flatten functions hold the pointers themselves. A field is `none`
when its key was never assigned (slack maps) or was assigned a nil pointer (outer maps). -/

/-- The map built by `flattenSlackTemplate`: a key is assigned only for a non-nil pointer. -/
structure SlackTemplateMap where
  title : Option String
  image_url : Option String
  message : Option String
  deriving DecidableEq, Repr

/-- The map `out` built by `flattenTemplates`: all three keys are always assigned. -/
structure TemplatesMap where
  grouping_key : Option String
  resolve_signal : Option String
  slack : List SlackTemplateMap
  deriving DecidableEq, Repr

/-- The map built by `flattenRouteSlack`. -/
structure RouteSlackMap where
  channel_id : Option String
  deriving DecidableEq, Repr

/-- The map `out` built by `flattenDefaultRoute`. -/
structure DefaultRouteMap where
  id : String
  escalation_chain_id : Option String
  slack : List RouteSlackMap
  deriving DecidableEq, Repr

/-! ## Amixr integration: what the expand functions read

`d.Get` hands the expand functions a `[]interface{}` whose elements are
`map[string]interface{}`. An element is `none` when it is the nil interface; a field is
`none` when the key is missing from the map (indexing then yields the nil interface). -/

/-- One element of a `templates.slack` list as read from state. -/
structure SlackTemplateBlock where
  title : Option String
  message : Option String
  image_url : Option String
  deriving DecidableEq, Repr

/-- One element of a `templates` list as read from state. -/
structure TemplatesBlock where
  grouping_key : Option String
  resolve_signal : Option String
  slack : Option (List (Option SlackTemplateBlock))
  deriving DecidableEq, Repr

/-- One element of a `default_route.slack` list as read from state. -/
structure RouteSlackBlock where
  channel_id : Option String
  deriving DecidableEq, Repr

/-- One element of a `default_route` list as read from state. -/
structure DefaultRouteBlock where
  id : Option String
  escalation_chain_id : Option String
  slack : Option (List (Option RouteSlackBlock))
  deriving DecidableEq, Repr

/-- Dereference of a pointer: panics on nil. -/
def deref {α : Type} (p : Option α) : Except Panic α :=
  match p with
  | none => .error .nilDeref
  | some a => .ok a

/-- The type assertion `r.(map[string]interface{})` or `v.(string)`: panics on the nil
interface. -/
def assertType {α : Type} (v : Option α) : Except Panic α :=
  match v with
  | none => .error .typeAssert
  | some a => .ok a

/-- The comparison `inputMap[key] != ""` on an interface value: a missing key (nil
interface) differs from the empty string. -/
def neEmpty (v : Option String) : Bool :=
  match v with
  | none => true
  | some s => s != ""

/-! ## Amixr integration: flatten -/

/-- `flattenRouteSlack`. -/
def flattenRouteSlack (inp : Option SlackRoute) : Except Panic (List RouteSlackMap) := do
  let r ← deref inp
  if r.ChannelId.isSome then
    pure [{ channel_id := r.ChannelId }]
  else
    pure []

/-- `flattenSlackTemplate`: the map is appended when at least one pointer is non-nil. -/
def flattenSlackTemplate (inp : Option SlackTemplate) :
    Except Panic (List SlackTemplateMap) := do
  let s ← deref inp
  let add := false
  let add := if s.Title.isSome then true else add
  let add := if s.ImageURL.isSome then true else add
  let add := if s.Message.isSome then true else add
  let slackTemplate : SlackTemplateMap :=
    { title := s.Title, image_url := s.ImageURL, message := s.Message }
  if add then pure [slackTemplate] else pure []

/-- `flattenTemplates`. The call `flattenSlackTemplate(in.Slack)` of line 254 comes before
the `in.Slack != nil` test of line 267 and is made whatever `in.Slack` is. -/
def flattenTemplates (inp : Option Templates) : Except Panic (List TemplatesMap) := do
  let t ← deref inp
  let slack ← flattenSlackTemplate t.Slack
  let out : TemplatesMap :=
    { grouping_key := t.GroupingKey, resolve_signal := t.ResolveSignal, slack := slack }
  let add := false
  let add := if t.GroupingKey.isSome then true else add
  let add := if t.ResolveSignal.isSome then true else add
  let add ←
    if t.Slack.isSome then do
      let flat ← flattenSlackTemplate t.Slack
      pure (if flat.length > 0 then true else add)
    else
      pure add
  if add then pure [out] else pure []

/-- `flattenDefaultRoute`: the map is always appended. -/
def flattenDefaultRoute (inp : Option DefaultRoute) :
    Except Panic (List DefaultRouteMap) := do
  let r ← deref inp
  let slack ← flattenRouteSlack r.SlackRoute
  pure [{ id := r.ID, escalation_chain_id := r.EscalationChainId, slack := slack }]

/-! ## Amixr integration: expand -/

/-- One iteration of the loop of `expandRouteSlack`. -/
def expandRouteSlackStep (acc : SlackRoute) (r : Option RouteSlackBlock) :
    Except Panic SlackRoute := do
  let inputMap ← assertType r
  if neEmpty inputMap.channel_id then
    let channelId ← assertType inputMap.channel_id
    pure { acc with ChannelId := some channelId }
  else
    pure acc

/-- `expandRouteSlack`. -/
def expandRouteSlack (inp : List (Option RouteSlackBlock)) : Except Panic SlackRoute :=
  inp.foldlM expandRouteSlackStep { ChannelId := none }

/-- One iteration of the loop of `expandSlackTemplate`. -/
def expandSlackTemplateStep (acc : SlackTemplate) (r : Option SlackTemplateBlock) :
    Except Panic SlackTemplate := do
  let inputMap ← assertType r
  let acc ←
    if neEmpty inputMap.title then do
      let t ← assertType inputMap.title
      pure { acc with Title := some t }
    else pure acc
  let acc ←
    if neEmpty inputMap.message then do
      let m ← assertType inputMap.message
      pure { acc with Message := some m }
    else pure acc
  if neEmpty inputMap.image_url then do
    let iu ← assertType inputMap.image_url
    pure { acc with ImageURL := some iu }
  else pure acc

/-- `expandSlackTemplate`. -/
def expandSlackTemplate (inp : List (Option SlackTemplateBlock)) :
    Except Panic SlackTemplate :=
  inp.foldlM expandSlackTemplateStep { Title := none, Message := none, ImageURL := none }

/-- One iteration of the loop of `expandTemplates`. -/
def expandTemplatesStep (acc : Templates) (r : Option TemplatesBlock) :
    Except Panic Templates := do
  let inputMap ← assertType r
  let acc ←
    if neEmpty inputMap.grouping_key then do
      let gk ← assertType inputMap.grouping_key
      pure { acc with GroupingKey := some gk }
    else pure acc
  let acc ←
    if neEmpty inputMap.resolve_signal then do
      let rs ← assertType inputMap.resolve_signal
      pure { acc with ResolveSignal := some rs }
    else pure acc
  match inputMap.slack with
  | none => pure { acc with Slack := none }
  | some l => do
    let s ← expandSlackTemplate l
    pure { acc with Slack := some s }

/-- `expandTemplates`. -/
def expandTemplates (input : List (Option TemplatesBlock)) : Except Panic Templates :=
  input.foldlM expandTemplatesStep
    { GroupingKey := none, ResolveSignal := none, Slack := none }

/-- One iteration of the loop of `expandDefaultRoute`. -/
def expandDefaultRouteStep (acc : DefaultRoute) (r : Option DefaultRouteBlock) :
    Except Panic DefaultRoute := do
  let inputMap ← assertType r
  let id ← assertType inputMap.id
  let acc := { acc with ID := id }
  let acc ←
    if neEmpty inputMap.escalation_chain_id then do
      let e ← assertType inputMap.escalation_chain_id
      pure { acc with EscalationChainId := some e }
    else pure acc
  match inputMap.slack with
  | none => pure { acc with SlackRoute := none }
  | some l => do
    let s ← expandRouteSlack l
    pure { acc with SlackRoute := some s }

/-- `expandDefaultRoute`. -/
def expandDefaultRoute (input : List (Option DefaultRouteBlock)) :
    Except Panic DefaultRoute :=
  input.foldlM expandDefaultRouteStep
    { ID := "", EscalationChainId := none, SlackRoute := none }

/-! ## Amixr integration: state read-back

`resourceIntegrationRead` stores the flattened maps with `d.Set`; the other handlers read
them with `d.Get`. The state container keeps strings, not pointers: a string attribute
that was not assigned, or was assigned a nil pointer, reads back as the empty string, and
every list is read back as a list of maps. -/

/-- A string attribute as `d.Get` returns it. -/
def readString (p : Option String) : Option String :=
  some (p.getD "")

/-- A `templates.slack` element as `d.Get` returns it. -/
def readSlackTemplateMap (m : SlackTemplateMap) : Option SlackTemplateBlock :=
  some { title := readString m.title, message := readString m.message,
         image_url := readString m.image_url }

/-- A `templates` element as `d.Get` returns it. -/
def readTemplatesMap (m : TemplatesMap) : Option TemplatesBlock :=
  some { grouping_key := readString m.grouping_key,
         resolve_signal := readString m.resolve_signal,
         slack := some (m.slack.map readSlackTemplateMap) }

/-- The `templates` attribute as `d.Get` returns it after `d.Set` of a flattened list. -/
def readTemplates (l : List TemplatesMap) : List (Option TemplatesBlock) :=
  l.map readTemplatesMap

/-- The `slack` list of a templates block as `d.Get` returns it. -/
def readSlackTemplates (l : List SlackTemplateMap) : List (Option SlackTemplateBlock) :=
  l.map readSlackTemplateMap

/-- Remote `Templates` to state and back: flatten, store, read, expand. -/
def templatesRoundTrip (r : Templates) : Except Panic Templates := do
  let flat ← flattenTemplates (some r)
  expandTemplates (readTemplates flat)

/-- Remote `SlackTemplate` to state and back: flatten, store, read, expand. -/
def slackTemplateRoundTrip (r : SlackTemplate) : Except Panic SlackTemplate := do
  let flat ← flattenSlackTemplate (some r)
  expandSlackTemplate (readSlackTemplates flat)

/-- The composition `flattenTemplates(expandTemplates(y))`. -/
def flattenExpandTemplates (y : List (Option TemplatesBlock)) :
    Except Panic (List TemplatesMap) := do
  let t ← expandTemplates y
  flattenTemplates (some t)

/-- The composition `flattenDefaultRoute(expandDefaultRoute(y))`. -/
def flattenExpandDefaultRoute (y : List (Option DefaultRouteBlock)) :
    Except Panic (List DefaultRouteMap) := do
  let r ← expandDefaultRoute y
  flattenDefaultRoute (some r)

/-- State to remote `Templates` and back: expand, flatten, store, read. -/
def templatesStateRoundTrip (y : List (Option TemplatesBlock)) :
    Except Panic (List (Option TemplatesBlock)) := do
  let flat ← flattenExpandTemplates y
  pure (readTemplates flat)

/-! ## Amixr integration: delete handler -/

/-- The part of the Amixr API client the delete handler uses: `DeleteIntegration` answers
with `none` on success and with the error text otherwise. -/
structure AmixrClient where
  DeleteIntegration : String → Option String

/-- What `resourceIntegrationDelete` leaves behind: the returned error (`none` is `nil`),
the identifier in state, and the identifiers it asked the remote to delete. -/
structure IntegrationOutcome where
  err : Option String
  id : String
  deleted : List String

/-- `resourceIntegrationDelete`, on a state whose identifier is `id`. -/
def resourceIntegrationDelete (client : AmixrClient) (id : String) : IntegrationOutcome :=
  match client.DeleteIntegration id with
  | some err => { err := some err, id := id, deleted := [id] }
  | none => { err := none, id := "", deleted := [id] }

/-! ## Cloud stack: library functions -/

/-- `strings.HasPrefix(s, pre)`. -/
def startsWith (s pre : String) : Bool :=
  pre.toList.isPrefixOf s.toList

/-- The two errors of `strconv`: `ErrSyntax` and `ErrRange`. -/
inductive NumError where
  | badSyntax
  | outOfRange
  deriving DecidableEq, Repr

/-- The loop of `strconv.ParseUint(s, 10, 64)` from the accumulated value `n`: a character
that is not a decimal digit is a syntax error with value 0, an overflow is a range error
with value `2^64 - 1`, reported at the digit where it happens. -/
def parseUintLoop : List Char → Nat → Nat × Option NumError
  | [], n => (n, none)
  | c :: cs, n =>
    if '0' ≤ c ∧ c ≤ '9' then
      if n ≥ (2 ^ 64 - 1) / 10 + 1 then (2 ^ 64 - 1, some .outOfRange)
      else
        let n1 := n * 10 + (c.toNat - '0'.toNat)
        if n1 > 2 ^ 64 - 1 then (2 ^ 64 - 1, some .outOfRange)
        else parseUintLoop cs n1
    else (0, some .badSyntax)

/-- `strconv.ParseUint(s, 10, 64)`. -/
def ParseUint (s : List Char) : Nat × Option NumError :=
  match s with
  | [] => (0, some .badSyntax)
  | _ => parseUintLoop s 0

/-- `strconv.ParseInt(s, 10, 64)`: the value and the error, both of which Go returns. -/
def ParseInt (s : String) : Int × Option NumError :=
  match s.toList with
  | [] => (0, some .badSyntax)
  | c :: cs =>
    let neg := c = '-'
    let rest := if c = '+' ∨ c = '-' then cs else c :: cs
    match ParseUint rest with
    | (_, some .badSyntax) => (0, some .badSyntax)
    | (un, _) =>
      if ¬ neg ∧ un ≥ 2 ^ 63 then (2 ^ 63 - 1, some .outOfRange)
      else if neg ∧ un > 2 ^ 63 then (-(2 ^ 63), some .outOfRange)
      else (if neg then -(un : Int) else (un : Int), none)

/-- `strconv.FormatInt(i, 10)`. -/
def FormatInt (i : Int) : String :=
  toString i

/-- The backward scan of `path.Clean` on a `..` element, on the output buffer held in
reverse: the last byte is dropped, then bytes are dropped until the one just dropped is a
slash or the buffer is down to `dotdot` bytes. -/
def cleanBacktrack (dotdot : Nat) : Char → List Char → List Char
  | _, [] => []
  | dropped, c :: r =>
    if (c :: r).length > dotdot ∧ dropped ≠ '/' then cleanBacktrack dotdot c r else c :: r

/-- The main loop of `path.Clean`: `path` is what is left to read, `out` the output
buffer in reverse, `dotdot` the index below which the buffer is not cut back. -/
def cleanLoop (rooted : Bool) : Nat → List Char → List Char → Nat → List Char
  | 0, _, out, _ => out
  | _ + 1, [], out, _ => out
  | fuel + 1, c :: rest, out, dotdot =>
    if c = '/' then
      cleanLoop rooted fuel rest out dotdot
    else if c = '.' ∧ (rest = [] ∨ rest.head? = some '/') then
      cleanLoop rooted fuel rest out dotdot
    else if c = '.' ∧ rest.head? = some '.' ∧
        (rest.tail = [] ∨ rest.tail.head? = some '/') then
      if out.length > dotdot then
        match out with
        | [] => cleanLoop rooted fuel rest.tail out dotdot
        | last :: o => cleanLoop rooted fuel rest.tail (cleanBacktrack dotdot last o) dotdot
      else if ¬ rooted then
        let out1 := if out.length > 0 then '/' :: out else out
        let out2 := '.' :: '.' :: out1
        cleanLoop rooted fuel rest.tail out2 out2.length
      else
        cleanLoop rooted fuel rest.tail out dotdot
    else
      let out1 :=
        if (rooted ∧ out.length ≠ 1) ∨ (¬ rooted ∧ out.length ≠ 0) then '/' :: out else out
      let seg := (c :: rest).takeWhile (fun x => x ≠ '/')
      cleanLoop rooted fuel ((c :: rest).dropWhile (fun x => x ≠ '/')) (seg.reverse ++ out1)
        dotdot

/-- `path.Clean`. -/
def pathClean (path : String) : String :=
  match path.toList with
  | [] => "."
  | c :: rest =>
    let rooted := c = '/'
    let out :=
      if rooted then cleanLoop true (rest.length + 1) rest ['/'] 1
      else cleanLoop false (rest.length + 2) (c :: rest) [] 0
    if out.length = 0 then "." else String.mk out.reverse

/-- `path.Join`: empty elements ahead of the first non-empty one are skipped, the others
are joined with slashes and the result is cleaned; nothing but empty elements gives the
empty string. -/
def pathJoin (elem : List String) : String :=
  if (elem.map String.length).sum = 0 then ""
  else
    let buf := elem.foldl
      (fun buf e =>
        if buf.length > 0 ∨ e ≠ "" then (if buf.length > 0 then buf ++ "/" else buf) ++ e
        else buf) ""
    pathClean buf

/-! ## Cloud stack: state container and diagnostics -/

/-- A value of a root attribute: the schema of the stack has string, int and bool ones. -/
inductive AttrVal where
  | str (s : String)
  | int (i : Int)
  | bool (b : Bool)
  deriving DecidableEq, Repr

/-- The keys of the schema of `ResourceCloudStack`. -/
def stackSchemaKeys : List String :=
  ["id", "name", "description", "slug", "region_slug", "url", "wait_for_readiness",
   "org_id", "org_slug", "org_name", "status",
   "prometheus_user_id", "prometheus_url", "prometheus_name",
   "prometheus_remote_endpoint", "prometheus_remote_write_endpoint", "prometheus_status",
   "alertmanager_user_id", "alertmanager_name", "alertmanager_url", "alertmanager_status",
   "logs_user_id", "logs_name", "logs_url", "logs_status"]

/-- The `schema.ResourceData` of a stack: the identifier, the attribute values of the
prior state (`old`) and of the plan (`new`) as `d.GetChange` reports them, unset
attributes having the zero value of their type, and the values written with `d.Set`
during the operation, latest first. -/
structure ResourceData where
  id : String
  old : String → AttrVal
  new : String → AttrVal
  written : List (String × AttrVal)

namespace ResourceData

/-- `d.Id()`. -/
def Id (d : ResourceData) : String := d.id

/-- `d.SetId(v)`. -/
def SetId (d : ResourceData) (v : String) : ResourceData := { d with id := v }

/-- `d.Get(key)`: the value written last, or else the planned value. -/
def Get (d : ResourceData) (key : String) : AttrVal :=
  (d.written.lookup key).getD (d.new key)

/-- `d.Get(key).(string)`; the schema types the attribute, a value of another type reads
as the zero value. -/
def GetString (d : ResourceData) (key : String) : String :=
  match d.Get key with
  | .str s => s
  | _ => ""

/-- `d.Get(key).(bool)`. -/
def GetBool (d : ResourceData) (key : String) : Bool :=
  match d.Get key with
  | .bool b => b
  | _ => false

/-- `d.Set(key, v)`. -/
def Set (d : ResourceData) (key : String) (v : AttrVal) : ResourceData :=
  { d with written := (key, v) :: d.written }

/-- `d.HasChange(key)`: the prior and the planned value differ. -/
def HasChange (d : ResourceData) (key : String) : Bool :=
  d.old key != d.new key

/-- `d.HasChanges(keys...)`. -/
def HasChanges (d : ResourceData) (keys : List String) : Bool :=
  keys.any d.HasChange

/-- `d.HasChangesExcept(keys...)`: some attribute of the schema outside `keys` has
changed. -/
def HasChangesExcept (d : ResourceData) (keys : List String) : Bool :=
  stackSchemaKeys.any (fun attr => !(keys.contains attr) && d.HasChange attr)

end ResourceData

/-- The severities of `diag`. -/
inductive Severity where
  | Error
  | Warning
  deriving DecidableEq, Repr

/-- The `diag.Diagnostic` struct. -/
structure Diagnostic where
  Severity : Severity
  Summary : String
  deriving DecidableEq, Repr

/-- The `diag.Diagnostics` slice; `nil` is the empty list. -/
abbrev Diagnostics := List Diagnostic

/-- `diag.Errorf`, on the formatted message. -/
def Errorf (msg : String) : Diagnostics :=
  [{ Severity := .Error, Summary := msg }]

/-- `diag.FromErr` on a non-nil error. -/
def FromErr (err : String) : Diagnostics :=
  [{ Severity := .Error, Summary := err }]

/-! ## Cloud stack: remote client and HTTP transport -/

/-- The `gapi.CreateStackInput` struct. -/
structure CreateStackInput where
  Name : String
  Slug : String
  URL : String
  Region : String
  deriving DecidableEq, Repr

/-- The `gapi.UpdateStackInput` struct. -/
structure UpdateStackInput where
  Name : String
  Slug : String
  Description : String
  deriving DecidableEq, Repr

/-- The fields of `gapi.Stack` that `FlattenStack` and `ReadStack` read. -/
structure Stack where
  ID : Int
  Name : String
  Slug : String
  URL : String
  Status : String
  RegionSlug : String
  Description : String
  OrgID : Int
  OrgSlug : String
  OrgName : String
  HmInstancePromID : Int
  HmInstancePromURL : String
  HmInstancePromName : String
  HmInstancePromStatus : String
  HlInstanceID : Int
  HlInstanceURL : String
  HlInstanceName : String
  HlInstanceStatus : String
  AmInstanceID : Int
  AmInstanceName : String
  AmInstanceURL : String
  AmInstanceStatus : String
  deriving DecidableEq, Repr

/-- The Grafana Cloud API client (`gcloudapi`). A handler calls each method at most once,
so the answer of the remote to each call is a function of the arguments. An error is its
text; `UpdateStack` and `DeleteStack` answer `none` on success. -/
structure Client where
  NewStack : CreateStackInput → Except String Int
  StackByID : Int → Except String Stack
  UpdateStack : Int → UpdateStackInput → Option String
  DeleteStack : String → Option String

/-- The world outside a stack handler: the API client, `http.NewRequestWithContext` for a
HEAD request to a URL (an error or the request, which is its URL), what
`http.DefaultClient.Do` answers at the n-th probe (a transport error or the status code of
the response), the number of probes `resource.RetryContext` can start before its two
minute deadline, the text of its timeout error, and the `%#v` formatting of a string. -/
structure Env where
  client : Client
  NewRequest : String → Except String String
  Do : Nat → String → Except String Nat
  attempts : Nat
  timeoutError : String
  Quote : String → String

/-- A call that leaves the process: a method of the API client or a HEAD request. -/
inductive Call where
  | NewStack (stack : CreateStackInput)
  | StackByID (id : Int)
  | UpdateStack (id : Int) (stack : UpdateStackInput)
  | DeleteStack (slug : String)
  | Head (url : String)
  deriving DecidableEq, Repr

/-- Whether a call is a write to the remote API. -/
def Call.isWrite : Call → Bool
  | .NewStack _ => true
  | .UpdateStack _ _ => true
  | .DeleteStack _ => true
  | _ => false

/-- Whether a call is the update call of the API client. -/
def Call.isUpdate : Call → Bool
  | .UpdateStack _ _ => true
  | _ => false

/-- What a handler leaves behind: its diagnostics, the state container and the calls it
made, in order. -/
structure Outcome where
  diags : Diagnostics
  d : ResourceData
  calls : List Call

/-! ## Cloud stack: handlers -/

/-- `FlattenStack`. -/
def FlattenStack (d : ResourceData) (stack : Stack) : ResourceData :=
  let id := FormatInt stack.ID
  let d := d.SetId id
  let d := d.Set "name" (.str stack.Name)
  let d := d.Set "slug" (.str stack.Slug)
  let d := d.Set "url" (.str stack.URL)
  let d := d.Set "status" (.str stack.Status)
  let d := d.Set "region_slug" (.str stack.RegionSlug)
  let d := d.Set "description" (.str stack.Description)
  let d := d.Set "org_id" (.int stack.OrgID)
  let d := d.Set "org_slug" (.str stack.OrgSlug)
  let d := d.Set "org_name" (.str stack.OrgName)
  let d := d.Set "prometheus_user_id" (.int stack.HmInstancePromID)
  let d := d.Set "prometheus_url" (.str stack.HmInstancePromURL)
  let d := d.Set "prometheus_name" (.str stack.HmInstancePromName)
  let d := d.Set "prometheus_remote_endpoint"
    (.str (pathJoin [stack.HmInstancePromURL, "api/prom"]))
  let d := d.Set "prometheus_remote_write_endpoint"
    (.str (pathJoin [stack.HmInstancePromURL, "api/prom/push"]))
  let d := d.Set "prometheus_status" (.str stack.HmInstancePromStatus)
  let d := d.Set "logs_user_id" (.int stack.HlInstanceID)
  let d := d.Set "logs_url" (.str stack.HlInstanceURL)
  let d := d.Set "logs_name" (.str stack.HlInstanceName)
  let d := d.Set "logs_status" (.str stack.HlInstanceStatus)
  let d := d.Set "alertmanager_user_id" (.int stack.AmInstanceID)
  let d := d.Set "alertmanager_name" (.str stack.AmInstanceName)
  let d := d.Set "alertmanager_url" (.str stack.AmInstanceURL)
  d.Set "alertmanager_status" (.str stack.AmInstanceStatus)

/-- `ReadStack`. -/
def ReadStack (env : Env) (d : ResourceData) : Outcome :=
  let idStr := d.Id
  match ParseInt idStr with
  | (_, some _) =>
    { diags := Errorf ("Invalid id: " ++ env.Quote idStr), d := d, calls := [] }
  | (id, none) =>
    match env.client.StackByID id with
    | .error err =>
      if startsWith err "status: 404" then
        { diags := [], d := d.SetId "", calls := [.StackByID id] }
      else
        { diags := FromErr err, d := d, calls := [.StackByID id] }
    | .ok stack =>
      if stack.Status = "deleted" then
        { diags := [], d := d.SetId "", calls := [.StackByID id] }
      else
        { diags := [], d := FlattenStack d stack, calls := [.StackByID id] }

/-- The `resource.RetryError` struct. -/
structure RetryError where
  Err : String
  Retryable : Bool
  deriving DecidableEq, Repr

/-- `resource.RetryableError`. -/
def RetryableError (err : String) : RetryError :=
  { Err := err, Retryable := true }

/-- `resource.NonRetryableError`. -/
def NonRetryableError (err : String) : RetryError :=
  { Err := err, Retryable := false }

/-- The function `waitForStackReadiness` hands to `resource.RetryContext`, at the n-th
probe: the retry error (`none` is `nil`) and the HEAD requests sent. -/
def readinessProbe (env : Env) (d : ResourceData) (n : Nat) :
    Option RetryError × List Call :=
  match env.NewRequest (d.GetString "url") with
  | .error err => (some (NonRetryableError err), [])
  | .ok req =>
    match env.Do n req with
    | .error err => (some (NonRetryableError err), [.Head req])
    | .ok statusCode =>
      if statusCode ≠ 200 then
        (some (RetryableError "stack is not ready yet"), [.Head req])
      else
        (none, [.Head req])

/-- `resource.RetryContext` with room for `fuel` more probes before the deadline, at probe
number `n`, `last` being the error of the previous probe: `nil` from the function ends
the wait with `nil`, a non-retryable error ends it with that error, a retryable one
starts the next probe; at the deadline the last error is returned, or the timeout error
when no probe was made. -/
def RetryContext (timeoutError : String) (f : Nat → Option RetryError × List Call) :
    Nat → Nat → Option String → Option String × List Call
  | 0, _, last => (some (last.getD timeoutError), [])
  | fuel + 1, n, _ =>
    match f n with
    | (none, cs) => (none, cs)
    | (some rerr, cs) =>
      if rerr.Retryable then
        let rest := RetryContext timeoutError f fuel (n + 1) (some rerr.Err)
        (rest.1, cs ++ rest.2)
      else
        (some rerr.Err, cs)

/-- `waitForStackReadiness`: the diagnostics and the HEAD requests sent. -/
def waitForStackReadiness (env : Env) (d : ResourceData) : Diagnostics × List Call :=
  if ¬ d.GetBool "wait_for_readiness" then
    ([], [])
  else
    match RetryContext env.timeoutError (readinessProbe env d) env.attempts 0 none with
    | (some err, cs) => (FromErr ("error waiting for stack to be ready: " ++ err), cs)
    | (none, cs) => ([], cs)

/-- `CreateStack`. -/
def CreateStack (env : Env) (d : ResourceData) : Outcome :=
  let stack : CreateStackInput :=
    { Name := d.GetString "name", Slug := d.GetString "slug", URL := d.GetString "url",
      Region := d.GetString "region_slug" }
  match env.client.NewStack stack with
  | .error err =>
    if err = "409 Conflict" then
      { diags := Errorf ("Error: A Grafana stack with the name '" ++ stack.Name ++
          "' already exists."),
        d := d, calls := [.NewStack stack] }
    else
      { diags := FromErr err, d := d, calls := [.NewStack stack] }
  | .ok stackID =>
    let d := d.SetId (FormatInt stackID)
    let r := ReadStack env d
    if ¬ r.diags.isEmpty then
      { r with calls := .NewStack stack :: r.calls }
    else
      let w := waitForStackReadiness env r.d
      { diags := w.1, d := r.d, calls := .NewStack stack :: (r.calls ++ w.2) }

/-- `UpdateStack`. -/
def UpdateStack (env : Env) (d : ResourceData) : Outcome :=
  let stackID := (ParseInt d.Id).1
  let allowedChanges := ["name", "description", "slug"]
  if d.HasChangesExcept allowedChanges then
    { diags := Errorf "Error: Only name, slug and description can be updated.",
      d := d, calls := [] }
  else
    let stack : UpdateStackInput :=
      { Name := d.GetString "name", Slug := d.GetString "slug",
        Description := d.GetString "description" }
    let changed := d.HasChange "name" || d.HasChange "description" || d.HasChanges ["slug"]
    let updateErr := if changed then env.client.UpdateStack stackID stack else none
    let updateCalls := if changed then [Call.UpdateStack stackID stack] else []
    match updateErr with
    | some err => { diags := FromErr err, d := d, calls := updateCalls }
    | none =>
      let r := ReadStack env d
      if ¬ r.diags.isEmpty then
        { r with calls := updateCalls ++ r.calls }
      else
        let w := waitForStackReadiness env r.d
        { diags := w.1, d := r.d, calls := updateCalls ++ (r.calls ++ w.2) }

/-- `DeleteStack`. -/
def DeleteStack (env : Env) (d : ResourceData) : Outcome :=
  let slug := d.GetString "slug"
  match env.client.DeleteStack slug with
  | some err => { diags := FromErr err, d := d, calls := [.DeleteStack slug] }
  | none => { diags := [], d := d, calls := [.DeleteStack slug] }

/-! ## Cloud stack: quoting of an identifier -/

/-- The hexadecimal digit of a number below 16, in lower case. -/
def hexDigit (n : Nat) : Char :=
  "0123456789abcdef".toList.getD n '0'

/-- One character as `strconv.Quote` writes it, for a character that is ASCII or
printable: the double quote (34) and the backslash (92) are written after a backslash,
the control characters 7 to 13 have their letter, any other ASCII control character is
`\x` and two hexadecimal digits, and every other character stands for itself. -/
def quoteChar (c : Char) : List Char :=
  let backslash := Char.ofNat 92
  if c.toNat = 34 ∨ c.toNat = 92 then [backslash, c]
  else if c.toNat = 7 then [backslash, 'a']
  else if c.toNat = 8 then [backslash, 'b']
  else if c.toNat = 12 then [backslash, 'f']
  else if c.toNat = 10 then [backslash, 'n']
  else if c.toNat = 13 then [backslash, 'r']
  else if c.toNat = 9 then [backslash, 't']
  else if c.toNat = 11 then [backslash, 'v']
  else if c.toNat < 32 ∨ c.toNat = 127 then
    [backslash, 'x', hexDigit (c.toNat / 16), hexDigit (c.toNat % 16)]
  else [c]

/-- The `%#v` formatting of a string (`strconv.Quote`), for text whose characters are
ASCII or printable: the escaped characters between two double quotes. -/
def quoteText (s : String) : String :=
  String.mk (Char.ofNat 34 :: ((s.toList.map quoteChar).flatten ++ [Char.ofNat 34]))

/-! ## Cloud stack: sample states and worlds -/

/-- The attribute values of a stack `prod` with the given name and region. -/
def sampleAttrs (name region : String) : String → AttrVal := fun key =>
  if key = "wait_for_readiness" then .bool true
  else if key = "org_id" ∨ key = "prometheus_user_id" ∨ key = "alertmanager_user_id" ∨
      key = "logs_user_id" then .int 0
  else if key = "id" then .str "42"
  else if key = "name" then .str name
  else if key = "slug" then .str "prod"
  else if key = "region_slug" then .str region
  else if key = "url" then .str "https://prod.grafana.net"
  else .str ""

/-- A state for stack 42 whose plan moves it from region `eu` to region `us`. -/
def regionChange : ResourceData :=
  { id := "42", old := sampleAttrs "prod" "eu", new := sampleAttrs "prod" "us",
    written := [] }

/-- A state for stack 42 whose plan is identical to the prior state. -/
def noChange : ResourceData :=
  { id := "42", old := sampleAttrs "prod" "eu", new := sampleAttrs "prod" "eu",
    written := [] }

/-- A state for stack 42 whose plan renames it. -/
def nameChange : ResourceData :=
  { id := "42", old := sampleAttrs "prod" "eu", new := sampleAttrs "production" "eu",
    written := [] }

/-- A remote on which a stack of the declared name exists already and stack 42 is gone:
create answers 409, lookup and delete answer 404, each error in the client's format
`status: NNN, body: ...`, and the host of the stack does not resolve at the first
probe. -/
def goneEnv : Env :=
  { client :=
      { NewStack := fun _ => .error "status: 409, body: Conflict",
        StackByID := fun _ => .error "status: 404, body: stack not found",
        UpdateStack := fun _ _ => none,
        DeleteStack := fun _ => some "status: 404, body: stack not found" },
    NewRequest := fun url => .ok url,
    Do := fun n _ => if n = 0 then .error "dial tcp: no such host" else .ok 200,
    attempts := 5,
    timeoutError := "timeout while waiting for state to become success",
    Quote := quoteText }

/-- A remote whose create call fails with a server error, and whose stack answers 503
to two probes and 200 to the third. -/
def slowEnv : Env :=
  { client :=
      { NewStack := fun _ => .error "status: 500, body: internal error",
        StackByID := fun _ => .error "status: 500, body: internal error",
        UpdateStack := fun _ _ => none,
        DeleteStack := fun _ => none },
    NewRequest := fun url => .ok url,
    Do := fun n _ => if n < 2 then .ok 503 else .ok 200,
    attempts := 5,
    timeoutError := "timeout while waiting for state to become success",
    Quote := quoteText }

/-- An Amixr remote on which the integration is already gone. -/
def goneAmixr : AmixrClient :=
  { DeleteIntegration := fun _ => some "status: 404, body: integration not found" }

/-! ## Cloud stack: slug validation -/

/-- A character class of a regular expression: a list of inclusive ranges. -/
abbrev CharClass := List (Char × Char)

/-- Whether a character lies in one of the ranges of a class. -/
def CharClass.has (cls : CharClass) (c : Char) : Bool :=
  cls.any (fun r => decide (r.1 ≤ c) && decide (c ≤ r.2))

/-- How often a class is repeated: exactly once, or once or more (`+`). -/
inductive Repeat where
  | once
  | oneOrMore
  deriving DecidableEq, Repr

/-- A regular expression of the form `^C1 C2 ... Cn$`: a sequence of classes, each with
its repetition, anchored at the start and at the end of the text. -/
structure Regexp where
  items : List (CharClass × Repeat)
  deriving Repr

/-- Matching of a sequence of repeated classes against the whole of a text: the end
anchor holds on the empty rest only; a `+` item takes one character and then either ends
or goes on. -/
def matchItems : List (CharClass × Repeat) → List Char → Bool
  | [], s => s.isEmpty
  | _ :: _, [] => false
  | (cls, .once) :: rest, c :: cs => cls.has c && matchItems rest cs
  | (cls, .oneOrMore) :: rest, c :: cs =>
    cls.has c && (matchItems rest cs || matchItems ((cls, .oneOrMore) :: rest) cs)

/-- `(*Regexp).MatchString` for an expression anchored at both ends. -/
def Regexp.MatchString (re : Regexp) (s : String) : Bool :=
  matchItems re.items s.toList

/-- `stackSlugRegex`, the compiled pattern `^[a-z][a-z0-9]+$`. -/
def stackSlugRegex : Regexp :=
  { items := [([('a', 'z')], .once), ([('a', 'z'), ('0', '9')], .oneOrMore)] }

/-- The `ValidateFunc` of the `slug` attribute,
`validation.StringMatch(stackSlugRegex, message)`, on a string value of the attribute
`k`: the list of errors, empty when the value is accepted. -/
def validateSlug (k v : String) : List String :=
  if stackSlugRegex.MatchString v then []
  else ["invalid value for " ++ k ++
    " (must be a lowercase alphanumeric string and must start with a letter.)"]

/-- What the message of the slug validator asks for: a non-empty string of lowercase
ASCII letters and digits whose first character is a letter. -/
def lowercaseAlphanumericFromLetter (s : String) : Prop :=
  ∃ c cs, s.toList = c :: cs ∧ ('a' ≤ c ∧ c ≤ 'z') ∧
    ∀ x ∈ cs, ('a' ≤ x ∧ x ≤ 'z') ∨ ('0' ≤ x ∧ x ≤ '9')

/-- A stack as the remote returns it, with the Prometheus URL of a hosted instance. -/
def sampleStack : Stack :=
  { ID := 42, Name := "prod", Slug := "prod", URL := "https://prod.grafana.net",
    Status := "active", RegionSlug := "eu", Description := "",
    OrgID := 7, OrgSlug := "acme", OrgName := "Acme",
    HmInstancePromID := 1001,
    HmInstancePromURL := "https://prometheus-us-central1.grafana.net",
    HmInstancePromName := "prod-prom", HmInstancePromStatus := "active",
    HlInstanceID := 1002, HlInstanceURL := "https://logs-prod-us-central1.grafana.net",
    HlInstanceName := "prod-logs", HlInstanceStatus := "active",
    AmInstanceID := 1003, AmInstanceName := "prod-alerts",
    AmInstanceURL := "https://alertmanager-us-central1.grafana.net",
    AmInstanceStatus := "active" }

/-! # Theorems -/

/-! ## Templates and default route mapping -/

/-- The slip of `flattenTemplates`: without a Slack part the unguarded call of line 254
dereferences nil, whatever the string fields are. -/
theorem flattenTemplates_without_slack (gk rs : Option String) :
    flattenTemplates (some { GroupingKey := gk, ResolveSignal := rs, Slack := none })
      = .error .nilDeref := by
  rfl

/-- C1, counterexample: a remote `Templates` value with a Slack part that has no field
set, and no string field set, comes back from state without its Slack part. -/
theorem templates_round_trip_loses_empty_slack :
    templatesRoundTrip
        { GroupingKey := none, ResolveSignal := none,
          Slack := some { Title := none, Message := none, ImageURL := none } }
      = .ok { GroupingKey := none, ResolveSignal := none, Slack := none } ∧
    templatesRoundTrip
        { GroupingKey := none, ResolveSignal := none,
          Slack := some { Title := none, Message := none, ImageURL := none } }
      ≠ .ok { GroupingKey := none, ResolveSignal := none,
              Slack := some { Title := none, Message := none, ImageURL := none } } := by
  constructor
  · rfl
  · intro h
    have h2 : templatesRoundTrip
        { GroupingKey := none, ResolveSignal := none,
          Slack := some { Title := none, Message := none, ImageURL := none } }
      = .ok { GroupingKey := none, ResolveSignal := none, Slack := none } := rfl
    rw [h2] at h
    injection h with h3
    injection h3 with _ _ h4
    cases h4

/-- C1, amended: for a remote `Templates` value with a Slack part in which no set string
field is the empty string, flatten, state read-back and expand complete; the result is
the value itself when at least one string field is set, and the value with no field and
no Slack part when none is. -/
theorem templates_round_trip (r : Templates) (s : SlackTemplate)
    (hs : r.Slack = some s)
    (hgk : r.GroupingKey ≠ some "") (hrs : r.ResolveSignal ≠ some "")
    (ht : s.Title ≠ some "") (hm : s.Message ≠ some "") (hiu : s.ImageURL ≠ some "") :
    templatesRoundTrip r =
      .ok (if r.GroupingKey.isSome ∨ r.ResolveSignal.isSome ∨ s.Title.isSome ∨
              s.Message.isSome ∨ s.ImageURL.isSome
           then r
           else { GroupingKey := none, ResolveSignal := none, Slack := none }) := by
  obtain ⟨gk, rs, sl⟩ := r
  obtain ⟨t, m, iu⟩ := s
  simp only at hs hgk hrs ht hm hiu
  subst hs
  cases gk <;> cases rs <;> cases t <;> cases m <;> cases iu <;>
    simp_all [templatesRoundTrip, flattenTemplates, flattenSlackTemplate, deref, readTemplates,
      readTemplatesMap, readSlackTemplateMap, readString, expandTemplates,
      expandTemplatesStep, expandSlackTemplate, expandSlackTemplateStep, assertType, neEmpty,
      bind, Except.bind, pure, Except.pure, List.foldlM]

/-- C1, witness: a value with a grouping key and a Slack title comes back unchanged. -/
theorem templates_round_trip_witness :
    templatesRoundTrip
        { GroupingKey := some "k", ResolveSignal := none,
          Slack := some { Title := some "t", Message := none, ImageURL := none } }
      = .ok { GroupingKey := some "k", ResolveSignal := none,
              Slack := some { Title := some "t", Message := none, ImageURL := none } } :=
  templates_round_trip
    { GroupingKey := some "k", ResolveSignal := none,
      Slack := some { Title := some "t", Message := none, ImageURL := none } }
    { Title := some "t", Message := none, ImageURL := none }
    rfl (by decide) (by decide) (by decide) (by decide) (by decide)

/-- C2, counterexample: with no templates block and no default_route block the expanded
values have no Slack and no SlackRoute part, and both flatten functions dereference nil
instead of returning the empty list. -/
theorem flatten_expand_empty_fails :
    flattenExpandTemplates [] = .error .nilDeref ∧
    flattenExpandDefaultRoute [] = .error .nilDeref ∧
    ¬ (flattenExpandTemplates [] = .ok [] ∧ flattenExpandDefaultRoute [] = .ok []) := by
  refine ⟨rfl, rfl, ?_⟩
  rintro ⟨h, -⟩
  have h2 : flattenExpandTemplates [] = .error .nilDeref := rfl
  rw [h2] at h
  cases h

/-- C2, amended: with no templates block and no default_route block, `expandTemplates`
and `expandDefaultRoute` complete and yield the value with no field set and no Slack
(SlackRoute) part. On a `Templates` value with a Slack part, `flattenTemplates` completes
and yields no block entry exactly when no string field is set; on a `DefaultRoute` with a
SlackRoute part, `flattenDefaultRoute` completes and always yields exactly one block
entry. -/
theorem flatten_of_empty_blocks :
    expandTemplates [] = .ok { GroupingKey := none, ResolveSignal := none, Slack := none } ∧
    expandDefaultRoute [] = .ok { ID := "", EscalationChainId := none, SlackRoute := none } ∧
    (∀ (gk rs : Option String) (s : SlackTemplate),
      ∃ l, flattenTemplates (some { GroupingKey := gk, ResolveSignal := rs, Slack := some s })
          = .ok l ∧
        (l = [] ↔ gk = none ∧ rs = none ∧ s.Title = none ∧ s.Message = none ∧
          s.ImageURL = none)) ∧
    (∀ (id : String) (e : Option String) (sr : SlackRoute),
      flattenDefaultRoute (some { ID := id, EscalationChainId := e, SlackRoute := some sr })
        = .ok [{ id := id, escalation_chain_id := e,
                 slack := if sr.ChannelId.isSome then [{ channel_id := sr.ChannelId }]
                          else [] }]) := by
  refine ⟨rfl, rfl, ?_, ?_⟩
  · intro gk rs s
    obtain ⟨t, m, iu⟩ := s
    cases gk <;> cases rs <;> cases t <;> cases m <;> cases iu <;>
      simp [flattenTemplates, flattenSlackTemplate, deref, bind, Except.bind, pure,
        Except.pure]
  · intro id e sr
    obtain ⟨c⟩ := sr
    cases c <;>
      simp [flattenDefaultRoute, flattenRouteSlack, deref, bind, Except.bind, pure,
        Except.pure]

/-- C9, counterexample: a Slack title that is present with the empty string comes back
absent. -/
theorem slack_round_trip_drops_empty_title :
    slackTemplateRoundTrip { Title := some "", Message := none, ImageURL := none }
      = .ok { Title := none, Message := none, ImageURL := none } := by
  rfl

/-- C9, amended: for every remote `SlackTemplate`, flatten, state read-back and expand
complete, and each of Title, Message and ImageURL is present in the result, with the same
string, exactly when it is present in the input with a non-empty string; it is absent in
the result exactly when it is absent or present with the empty string in the input. -/
theorem slack_round_trip (r : SlackTemplate) :
    ∃ t, slackTemplateRoundTrip r = .ok t ∧
      (∀ s, t.Title = some s ↔ r.Title = some s ∧ s ≠ "") ∧
      (∀ s, t.Message = some s ↔ r.Message = some s ∧ s ≠ "") ∧
      (∀ s, t.ImageURL = some s ↔ r.ImageURL = some s ∧ s ≠ "") ∧
      (t.Title = none ↔ r.Title = none ∨ r.Title = some "") ∧
      (t.Message = none ↔ r.Message = none ∨ r.Message = some "") ∧
      (t.ImageURL = none ↔ r.ImageURL = none ∨ r.ImageURL = some "") := by
  obtain ⟨t, m, iu⟩ := r
  have key : ∀ p : Option String, (p = none ∨ p = some "") ∨ ∃ s, p = some s ∧ s ≠ "" := by
    intro p
    cases p with
    | none => simp
    | some s => by_cases h : s = "" <;> simp [h]
  rcases key t with (rfl | rfl) | ⟨a, rfl, ha⟩ <;>
  rcases key m with (rfl | rfl) | ⟨b, rfl, hb⟩ <;>
  rcases key iu with (rfl | rfl) | ⟨c, rfl, hc⟩ <;>
    simp [slackTemplateRoundTrip, flattenSlackTemplate, deref, readSlackTemplates,
      readSlackTemplateMap, readString, expandSlackTemplate, expandSlackTemplateStep,
      assertType, neEmpty, bind, Except.bind, pure, Except.pure, List.foldlM, *]

/-- C10: for a templates state of exactly one block whose grouping_key and resolve_signal
are non-empty and whose slack is exactly one block with non-empty title, message and
image_url, expand, flatten and state read-back complete and give the state back. -/
theorem templates_state_round_trip (gk rs t m iu : String)
    (hgk : gk ≠ "") (hrs : rs ≠ "") (ht : t ≠ "") (hm : m ≠ "") (hiu : iu ≠ "") :
    templatesStateRoundTrip
        [some { grouping_key := some gk, resolve_signal := some rs,
                slack := some [some { title := some t, message := some m,
                                      image_url := some iu }] }]
      = .ok [some { grouping_key := some gk, resolve_signal := some rs,
                    slack := some [some { title := some t, message := some m,
                                          image_url := some iu }] }] := by
  simp [templatesStateRoundTrip, flattenExpandTemplates, flattenTemplates,
    flattenSlackTemplate, deref, readTemplates, readTemplatesMap, readSlackTemplateMap,
    readString, expandTemplates, expandTemplatesStep, expandSlackTemplate,
    expandSlackTemplateStep, assertType, neEmpty, bind, Except.bind, pure, Except.pure,
    List.foldlM, hgk, hrs, ht, hm, hiu]

/-- C10, witness: a fully specified templates block. -/
theorem templates_state_round_trip_witness :
    templatesStateRoundTrip
        [some { grouping_key := some "key", resolve_signal := some "sig",
                slack := some [some { title := some "t", message := some "m",
                                      image_url := some "u" }] }]
      = .ok [some { grouping_key := some "key", resolve_signal := some "sig",
                    slack := some [some { title := some "t", message := some "m",
                                          image_url := some "u" }] }] :=
  templates_state_round_trip "key" "sig" "t" "m" "u"
    (by decide) (by decide) (by decide) (by decide) (by decide)

/-! ## Cloud stack handlers -/

/-- `HasChangesExcept` holds exactly when some schema attribute outside the given keys
has changed. -/
theorem hasChangesExcept_iff (d : ResourceData) (keys : List String) :
    d.HasChangesExcept keys = true ↔
      ∃ k, k ∈ stackSchemaKeys ∧ k ∉ keys ∧ d.HasChange k = true := by
  simp [ResourceData.HasChangesExcept, List.any_eq_true]

/-- `ReadStack` makes at most one call, the lookup of the stack. -/
theorem readStack_calls (env : Env) (d : ResourceData) :
    ∀ c ∈ (ReadStack env d).calls, ∃ id, c = Call.StackByID id := by
  intro c hc
  simp only [ReadStack] at hc
  split at hc
  · simp at hc
  · split at hc <;> split at hc <;> simp at hc <;> exact ⟨_, hc⟩

/-- Every call of `resource.RetryContext` on the readiness probe is a HEAD request. -/
theorem retryContext_calls (env : Env) (d : ResourceData) (fuel n : Nat)
    (last : Option String) :
    ∀ c ∈ (RetryContext env.timeoutError (readinessProbe env d) fuel n last).2,
      ∃ url, c = Call.Head url := by
  induction fuel generalizing n last with
  | zero => simp [RetryContext]
  | succ fuel ih =>
    intro c hc
    have hp : ∀ c ∈ (readinessProbe env d n).2, ∃ url, c = Call.Head url := by
      intro c hc
      unfold readinessProbe at hc
      split at hc
      · simp at hc
      · split at hc
        · simp at hc; exact ⟨_, hc⟩
        · split at hc <;> simp at hc <;> exact ⟨_, hc⟩
    unfold RetryContext at hc
    split at hc
    · rename_i cs heq
      exact hp c (by rw [heq]; exact hc)
    · rename_i rerr cs heq
      split at hc
      · simp only [List.mem_append] at hc
        rcases hc with hc | hc
        · exact hp c (by rw [heq]; exact hc)
        · exact ih _ _ c hc
      · exact hp c (by rw [heq]; exact hc)

/-- Every call of `waitForStackReadiness` is a HEAD request. -/
theorem waitForStackReadiness_calls (env : Env) (d : ResourceData) :
    ∀ c ∈ (waitForStackReadiness env d).2, ∃ url, c = Call.Head url := by
  intro c hc
  unfold waitForStackReadiness at hc
  split at hc
  · simp at hc
  · split at hc
    · rename_i err cs heq
      exact retryContext_calls env d _ _ _ c (by rw [heq]; exact hc)
    · rename_i cs heq
      exact retryContext_calls env d _ _ _ c (by rw [heq]; exact hc)

/-- The calls of `UpdateStack`: the update call, when no attribute outside name,
description and slug has changed and one of these three has, followed by calls that are
not writes. -/
theorem updateStack_calls (env : Env) (d : ResourceData) :
    ∃ rest, (∀ c ∈ rest, c.isWrite = false) ∧
      (UpdateStack env d).calls =
        (if d.HasChangesExcept ["name", "description", "slug"] = false ∧
            (d.HasChange "name" || d.HasChange "description" || d.HasChanges ["slug"]) = true
         then [Call.UpdateStack (ParseInt d.Id).1
                { Name := d.GetString "name", Slug := d.GetString "slug",
                  Description := d.GetString "description" }]
         else []) ++ rest := by
  have hread : ∀ c ∈ (ReadStack env d).calls, c.isWrite = false := by
    intro c hc
    obtain ⟨id, rfl⟩ := readStack_calls env d c hc
    rfl
  have hwait : ∀ c ∈ (waitForStackReadiness env (ReadStack env d).d).2,
      c.isWrite = false := by
    intro c hc
    obtain ⟨url, rfl⟩ := waitForStackReadiness_calls env _ c hc
    rfl
  have hboth : ∀ c ∈ (ReadStack env d).calls ++
      (waitForStackReadiness env (ReadStack env d).d).2, c.isWrite = false := by
    intro c hc
    rcases List.mem_append.mp hc with h | h
    · exact hread c h
    · exact hwait c h
  simp only [UpdateStack]
  by_cases hx : d.HasChangesExcept ["name", "description", "slug"] = true
  · exact ⟨[], by simp, by simp [hx]⟩
  · simp only [Bool.not_eq_true] at hx
    by_cases hc : (d.HasChange "name" || d.HasChange "description" ||
        d.HasChanges ["slug"]) = true
    · cases hu : env.client.UpdateStack (ParseInt d.Id).1
          { Name := d.GetString "name", Slug := d.GetString "slug",
            Description := d.GetString "description" } with
      | some err => exact ⟨[], by simp, by simp [hx, hc, hu]⟩
      | none =>
        by_cases hr : (ReadStack env d).diags.isEmpty = true
        · exact ⟨_, hboth, by simp [hx, hc, hu, hr]⟩
        · exact ⟨_, hread, by simp [hx, hc, hu, hr]⟩
    · by_cases hr : (ReadStack env d).diags.isEmpty = true
      · exact ⟨_, hboth, by simp [hx, hc, hr]⟩
      · exact ⟨_, hread, by simp [hx, hc, hr]⟩

/-- C3, counterexample: when only region_slug has changed, the error message of
`UpdateStack` is the fixed text that lists name, slug and description; the changed
attribute region_slug does not occur in it. -/
theorem update_error_omits_changed_attribute :
    regionChange.HasChange "region_slug" = true ∧
    (UpdateStack goneEnv regionChange).diags =
      [{ Severity := .Error,
         Summary := "Error: Only name, slug and description can be updated." }] ∧
    ¬ ("region_slug".toList <:+:
        "Error: Only name, slug and description can be updated.".toList) := by
  refine ⟨by decide, by decide, by decide⟩

/-- C3, amended: when some schema attribute other than name, description and slug has
changed, `UpdateStack` returns one error diagnostic, makes no call to the remote client
and no probe, leaves the state as it was, and the message is the fixed text
"Error: Only name, slug and description can be updated.", which lists the attributes that
may change and not the one that did. -/
theorem update_rejects_other_changes (env : Env) (d : ResourceData) (k : String)
    (hk : k ∈ stackSchemaKeys) (hne : k ∉ ["name", "description", "slug"])
    (hch : d.HasChange k = true) :
    (UpdateStack env d).diags =
      [{ Severity := .Error,
         Summary := "Error: Only name, slug and description can be updated." }] ∧
    (UpdateStack env d).calls = [] ∧
    (UpdateStack env d).d = d := by
  have hx : d.HasChangesExcept ["name", "description", "slug"] = true :=
    (hasChangesExcept_iff d _).mpr ⟨k, hk, hne, hch⟩
  simp [UpdateStack, hx, Errorf]

/-- C3, witness: the plan that moves stack 42 from region eu to region us. -/
theorem update_rejects_other_changes_witness :
    (UpdateStack goneEnv regionChange).diags =
      [{ Severity := .Error,
         Summary := "Error: Only name, slug and description can be updated." }] ∧
    (UpdateStack goneEnv regionChange).calls = [] ∧
    (UpdateStack goneEnv regionChange).d = regionChange :=
  update_rejects_other_changes goneEnv regionChange "region_slug"
    (by decide) (by decide) (by decide)

/-- C4: `UpdateStack` makes the remote update call exactly when at least one of name,
description and slug has changed and no other schema attribute has; when the plan is
identical to the prior state, none of its calls is a write. -/
theorem update_call_iff (env : Env) (d : ResourceData) :
    ((∃ c ∈ (UpdateStack env d).calls, c.isUpdate = true) ↔
      ((d.HasChange "name" = true ∨ d.HasChange "description" = true ∨
          d.HasChange "slug" = true) ∧
        ∀ k ∈ stackSchemaKeys, k ∉ ["name", "description", "slug"] →
          d.HasChange k = false)) ∧
    ((∀ k, d.old k = d.new k) → ∀ c ∈ (UpdateStack env d).calls, c.isWrite = false) := by
  obtain ⟨rest, hrest, hcalls⟩ := updateStack_calls env d
  have hnoupd : ∀ c ∈ rest, c.isUpdate = false := by
    intro c hc
    have := hrest c hc
    cases c <;> simp_all [Call.isWrite, Call.isUpdate]
  have hexc : d.HasChangesExcept ["name", "description", "slug"] = false ↔
      ∀ k ∈ stackSchemaKeys, k ∉ ["name", "description", "slug"] →
        d.HasChange k = false := by
    rw [← Bool.not_eq_true, hasChangesExcept_iff]
    constructor
    · intro h k hk hne
      by_contra hc
      exact h ⟨k, hk, hne, by simpa using hc⟩
    · rintro h ⟨k, hk, hne, hc⟩
      rw [h k hk hne] at hc
      cases hc
  have hchg : (d.HasChange "name" || d.HasChange "description" ||
      d.HasChanges ["slug"]) = true ↔
      (d.HasChange "name" = true ∨ d.HasChange "description" = true ∨
        d.HasChange "slug" = true) := by
    simp [ResourceData.HasChanges, or_assoc]
  constructor
  · rw [hcalls]
    constructor
    · rintro ⟨c, hc, hu⟩
      rcases List.mem_append.mp hc with h | h
      · split at h
        · rename_i hcond
          exact ⟨hchg.mp hcond.2, hexc.mp hcond.1⟩
        · simp at h
      · rw [hnoupd c h] at hu
        cases hu
    · rintro ⟨h1, h2⟩
      rw [if_pos ⟨hexc.mpr h2, hchg.mpr h1⟩]
      exact ⟨_, List.mem_append_left _ (List.mem_singleton.mpr rfl), rfl⟩
  · intro hsame c hc
    have hno : ∀ k, d.HasChange k = false := by
      intro k
      simp [ResourceData.HasChange, hsame k]
    rw [hcalls] at hc
    rcases List.mem_append.mp hc with h | h
    · rw [if_neg] at h
      · simp at h
      · rintro ⟨-, h2⟩
        simp [ResourceData.HasChanges, hno] at h2
    · exact hrest c h

/-- C4, witness: for the plan identical to the prior state of stack 42, no call of
`UpdateStack` is a write; for the plan that only renames it, the update call is made. -/
theorem update_call_iff_witness :
    (∀ c ∈ (UpdateStack goneEnv noChange).calls, c.isWrite = false) ∧
    (∃ c ∈ (UpdateStack goneEnv nameChange).calls, c.isUpdate = true) :=
  ⟨(update_call_iff goneEnv noChange).2 (fun _ => rfl),
   (update_call_iff goneEnv nameChange).1.mpr ⟨Or.inl (by decide), by decide⟩⟩

/-- C5: when the identifier parses as a decimal integer and the lookup of the stack
either fails with an error whose text starts with "status: 404" or returns a stack whose
status is "deleted", `ReadStack` returns no diagnostic and sets the identifier to the
empty string. -/
theorem read_absent_clears_id (env : Env) (d : ResourceData)
    (hid : (ParseInt d.Id).2 = none)
    (habsent :
      (∃ err, env.client.StackByID (ParseInt d.Id).1 = .error err ∧
        startsWith err "status: 404" = true) ∨
      (∃ stack, env.client.StackByID (ParseInt d.Id).1 = .ok stack ∧
        stack.Status = "deleted")) :
    (ReadStack env d).diags = [] ∧ (ReadStack env d).d.Id = "" := by
  rcases hp : ParseInt d.Id with ⟨id, perr⟩
  rw [hp] at hid habsent
  simp only at hid habsent
  subst hid
  simp only [ResourceData.Id] at hp
  rcases habsent with ⟨err, herr, h404⟩ | ⟨stack, hstack, hdel⟩
  · simp [ReadStack, hp, herr, h404, ResourceData.SetId, ResourceData.Id]
  · simp [ReadStack, hp, hstack, hdel, ResourceData.SetId, ResourceData.Id]

/-- C5, witness: stack 42 on a remote that answers 404 to the lookup. -/
theorem read_absent_clears_id_witness :
    (ReadStack goneEnv noChange).diags = [] ∧ (ReadStack goneEnv noChange).d.Id = "" :=
  read_absent_clears_id goneEnv noChange (by decide)
    (Or.inl ⟨"status: 404, body: stack not found", rfl, by decide⟩)

/-- What `CreateStack` does when the remote create call fails: it returns exactly one
error diagnostic, leaves the state (and so the identifier) as it was, and makes no call
but the create call: no lookup, no probe. The message is built around the declared name
only for an error whose text is exactly "409 Conflict", the text line 185 compares with;
for every other error it is the text of the error itself. -/
theorem create_failure (env : Env) (d : ResourceData) (err : String)
    (hfail : env.client.NewStack
        { Name := d.GetString "name", Slug := d.GetString "slug",
          URL := d.GetString "url", Region := d.GetString "region_slug" } = .error err) :
    (CreateStack env d).d = d ∧
    (CreateStack env d).calls =
      [Call.NewStack { Name := d.GetString "name", Slug := d.GetString "slug",
                       URL := d.GetString "url", Region := d.GetString "region_slug" }] ∧
    (CreateStack env d).diags =
      [{ Severity := .Error,
         Summary :=
           if err = "409 Conflict" then
             "Error: A Grafana stack with the name '" ++ d.GetString "name" ++
               "' already exists."
           else err }] := by
  by_cases h : err = "409 Conflict" <;> simp [CreateStack, hfail, h, Errorf, FromErr]

/-- C6, failing input: the stack declared with the name prod on a remote that answers the
create call with a 409, which the client reports as "status: 409, body: Conflict". The
text is not "409 Conflict", so the conflict branch of `CreateStack` is not taken: the
one diagnostic is the raw text of the error, in which the declared name prod does not
occur. No identifier is stored and the create call is the only call. -/
theorem create_conflict_omits_name :
    noChange.GetString "name" = "prod" ∧
    goneEnv.client.NewStack
        { Name := "prod", Slug := "prod", URL := "https://prod.grafana.net", Region := "eu" }
      = .error "status: 409, body: Conflict" ∧
    startsWith "status: 409, body: Conflict" "status: 409" = true ∧
    (CreateStack goneEnv noChange).diags =
      [{ Severity := .Error, Summary := "status: 409, body: Conflict" }] ∧
    ¬ ("prod".toList <:+: "status: 409, body: Conflict".toList) ∧
    (CreateStack goneEnv noChange).d.Id = noChange.Id ∧
    (CreateStack goneEnv noChange).calls =
      [Call.NewStack { Name := "prod", Slug := "prod", URL := "https://prod.grafana.net",
                       Region := "eu" }] := by
  refine ⟨by decide, rfl, by decide, by decide, by decide, by decide, by decide⟩

/-- C7, counterexample: on a remote that answers not found to the delete call, both
delete handlers return the error: `DeleteStack` an error diagnostic and
`resourceIntegrationDelete` the error, with the identifier still in state. -/
theorem delete_not_found_is_error :
    (DeleteStack goneEnv noChange).diags =
      [{ Severity := .Error, Summary := "status: 404, body: stack not found" }] ∧
    (resourceIntegrationDelete goneAmixr "I1").err =
      some "status: 404, body: integration not found" ∧
    (resourceIntegrationDelete goneAmixr "I1").id = "I1" := by
  refine ⟨by decide, by decide, by decide⟩

/-- C7, amended: `DeleteStack` and `resourceIntegrationDelete` return success exactly when
the remote delete call succeeds; every error of the remote delete call, not found
included, is returned with its text (as the one error diagnostic of `DeleteStack`, as the
error of `resourceIntegrationDelete`), and `resourceIntegrationDelete` clears the
identifier exactly on success. -/
theorem delete_returns_remote_result (env : Env) (d : ResourceData)
    (client : AmixrClient) (id : String) :
    ((DeleteStack env d).diags = [] ↔
      env.client.DeleteStack (d.GetString "slug") = none) ∧
    (∀ err, (DeleteStack env d).diags = [{ Severity := .Error, Summary := err }] ↔
      env.client.DeleteStack (d.GetString "slug") = some err) ∧
    (resourceIntegrationDelete client id).err = client.DeleteIntegration id ∧
    (resourceIntegrationDelete client id).id =
      (if client.DeleteIntegration id = none then "" else id) := by
  refine ⟨?_, ?_, ?_, ?_⟩
  · cases h : env.client.DeleteStack (d.GetString "slug") <;>
      simp [DeleteStack, h, FromErr]
  · intro err
    cases h : env.client.DeleteStack (d.GetString "slug") <;>
      simp [DeleteStack, h, FromErr]
  · cases h : client.DeleteIntegration id <;> simp [resourceIntegrationDelete, h]
  · cases h : client.DeleteIntegration id <;> simp [resourceIntegrationDelete, h]

/-- A probe whose request is built and answered with a status other than 200 is
retryable and sends one HEAD request. -/
theorem readinessProbe_not_ready (env : Env) (d : ResourceData) (req : String) (n st : Nat)
    (hreq : env.NewRequest (d.GetString "url") = .ok req)
    (hdo : env.Do n req = .ok st) (hst : st ≠ 200) :
    readinessProbe env d n =
      (some { Err := "stack is not ready yet", Retryable := true }, [Call.Head req]) := by
  simp [readinessProbe, hreq, hdo, hst, RetryableError]

/-- After `k` probes that were answered with a status other than 200,
`resource.RetryContext` has sent `k` HEAD requests and goes on with the next probe. -/
theorem retryContext_after_not_ready (env : Env) (d : ResourceData) (req : String)
    (hreq : env.NewRequest (d.GetString "url") = .ok req) (k : Nat) :
    ∀ (fuel n : Nat) (last : Option String), k ≤ fuel →
      (∀ i, i < k → ∃ st, env.Do (n + i) req = .ok st ∧ st ≠ 200) →
      RetryContext env.timeoutError (readinessProbe env d) fuel n last =
        ((RetryContext env.timeoutError (readinessProbe env d) (fuel - k) (n + k)
            (if k = 0 then last else some "stack is not ready yet")).1,
         List.replicate k (Call.Head req) ++
          (RetryContext env.timeoutError (readinessProbe env d) (fuel - k) (n + k)
            (if k = 0 then last else some "stack is not ready yet")).2) := by
  induction k with
  | zero => intro fuel n last _ _; simp
  | succ k ih =>
    intro fuel n last hk hpre
    obtain ⟨fuel, rfl⟩ : ∃ m, fuel = m + 1 := ⟨fuel - 1, by omega⟩
    obtain ⟨st, hdo, hst⟩ := hpre 0 (by omega)
    have hprobe := readinessProbe_not_ready env d req n st hreq (by simpa using hdo) hst
    have hnext : ∀ i, i < k → ∃ st, env.Do (n + 1 + i) req = .ok st ∧ st ≠ 200 := by
      intro i hi
      have := hpre (i + 1) (by omega)
      rwa [show n + (i + 1) = n + 1 + i by omega] at this
    have hrec := ih fuel (n + 1) (some "stack is not ready yet") (by omega) hnext
    rw [RetryContext, hprobe]
    simp only [if_true]
    rw [hrec]
    have e1 : fuel + 1 - (k + 1) = fuel - k := by omega
    have e2 : n + (k + 1) = n + 1 + k := by omega
    simp [e1, e2, List.replicate_succ]

/-- C8, counterexample: the host does not resolve at the first probe and would answer
200 at the second, with room for five probes; the probe reports the transport error as
non-retryable and `waitForStackReadiness` fails after that single HEAD request. -/
theorem transport_error_aborts_wait :
    readinessProbe goneEnv noChange 0 =
      (some { Err := "dial tcp: no such host", Retryable := false },
       [Call.Head "https://prod.grafana.net"]) ∧
    readinessProbe goneEnv noChange 1 = (none, [Call.Head "https://prod.grafana.net"]) ∧
    waitForStackReadiness goneEnv noChange =
      ([{ Severity := .Error,
          Summary := "error waiting for stack to be ready: dial tcp: no such host" }],
       [Call.Head "https://prod.grafana.net"]) := by
  refine ⟨by decide, by decide, by decide⟩

/-- C8, amended: a probe of `waitForStackReadiness` ends with `nil` exactly when the
request is built and answered with status 200, and its error is retryable exactly when
the request is built and answered with another status; a failure to build the request
and a transport error from sending it are both non-retryable. With wait_for_readiness
enabled and room for the probes before the deadline: a failure to build the request
aborts the wait at once with no HEAD request sent; after `k` answers other than 200, an
answer 200 to the next probe ends the wait successfully and a transport error at the next
probe aborts it with that error, after `k + 1` HEAD requests in both cases. -/
theorem readiness_probe_classification (env : Env) (d : ResourceData) :
    (∀ n, (readinessProbe env d n).1 = none ↔
      ∃ req, env.NewRequest (d.GetString "url") = .ok req ∧ env.Do n req = .ok 200) ∧
    (∀ n rerr, (readinessProbe env d n).1 = some rerr →
      (rerr.Retryable = true ↔
        ∃ req st, env.NewRequest (d.GetString "url") = .ok req ∧
          env.Do n req = .ok st ∧ st ≠ 200)) ∧
    (d.GetBool "wait_for_readiness" = true → 0 < env.attempts →
      ∀ err, env.NewRequest (d.GetString "url") = .error err →
        waitForStackReadiness env d =
          ([{ Severity := .Error,
              Summary := "error waiting for stack to be ready: " ++ err }], [])) ∧
    (d.GetBool "wait_for_readiness" = true →
      ∀ req k, k < env.attempts → env.NewRequest (d.GetString "url") = .ok req →
        (∀ i, i < k → ∃ st, env.Do i req = .ok st ∧ st ≠ 200) →
        (env.Do k req = .ok 200 →
          waitForStackReadiness env d = ([], List.replicate (k + 1) (Call.Head req))) ∧
        (∀ err, env.Do k req = .error err →
          waitForStackReadiness env d =
            ([{ Severity := .Error,
                Summary := "error waiting for stack to be ready: " ++ err }],
             List.replicate (k + 1) (Call.Head req)))) := by
  refine ⟨?_, ?_, ?_, ?_⟩
  · intro n
    cases hreq : env.NewRequest (d.GetString "url") with
    | error e => simp [readinessProbe, hreq]
    | ok req =>
      cases hdo : env.Do n req with
      | error e => simp [readinessProbe, hreq, hdo]
      | ok st =>
        by_cases hst : st = 200 <;> simp [readinessProbe, hreq, hdo, hst]
  · intro n rerr
    cases hreq : env.NewRequest (d.GetString "url") with
    | error e =>
      simp only [readinessProbe, hreq, Option.some.injEq]
      rintro rfl
      simp [NonRetryableError]
    | ok req =>
      cases hdo : env.Do n req with
      | error e =>
        simp only [readinessProbe, hreq, hdo, Option.some.injEq]
        rintro rfl
        simp [NonRetryableError, hdo]
      | ok st =>
        by_cases hst : st = 200
        · simp [readinessProbe, hreq, hdo, hst]
        · simp only [readinessProbe, hreq, hdo]
          simp only [ne_eq, hst, not_false_eq_true, if_true, Option.some.injEq]
          rintro rfl
          simp [RetryableError, hst, hdo]
  · intro hw hpos err hreq
    obtain ⟨m, hm⟩ : ∃ m, env.attempts = m + 1 := ⟨env.attempts - 1, by omega⟩
    simp [waitForStackReadiness, hw, hm, RetryContext, readinessProbe, hreq,
      NonRetryableError, FromErr]
  · intro hw req k hk hreq hpre
    have hpre0 : ∀ i, i < k → ∃ st, env.Do (0 + i) req = .ok st ∧ st ≠ 200 := by
      intro i hi
      simpa using hpre i hi
    have hsplit := retryContext_after_not_ready env d req hreq k env.attempts 0 none
      (by omega) hpre0
    obtain ⟨m, hm⟩ : ∃ m, env.attempts - k = m + 1 := ⟨env.attempts - k - 1, by omega⟩
    constructor
    · intro hdo
      simp only [waitForStackReadiness, hw]
      rw [hsplit, hm]
      simp [RetryContext, readinessProbe, hreq, hdo, List.replicate_succ']
    · intro err hdo
      simp only [waitForStackReadiness, hw]
      rw [hsplit, hm]
      simp [RetryContext, readinessProbe, hreq, hdo, NonRetryableError, FromErr,
        List.replicate_succ']

/-- C8, witness: a stack that answers 503 twice and then 200 is ready after three HEAD
requests; a host that does not resolve at the first probe aborts the wait after one. -/
theorem readiness_probe_classification_witness :
    waitForStackReadiness slowEnv noChange =
      ([], List.replicate 3 (Call.Head "https://prod.grafana.net")) ∧
    waitForStackReadiness goneEnv noChange =
      ([{ Severity := .Error,
          Summary := "error waiting for stack to be ready: " ++ "dial tcp: no such host" }],
       List.replicate 1 (Call.Head "https://prod.grafana.net")) :=
  ⟨((readiness_probe_classification slowEnv noChange).2.2.2 (by decide)
      "https://prod.grafana.net" 2 (by decide) rfl
      (fun i hi => ⟨503, by
        have : i = 0 ∨ i = 1 := by omega
        rcases this with rfl | rfl <;> rfl, by decide⟩)).1 rfl,
   ((readiness_probe_classification goneEnv noChange).2.2.2 (by decide)
      "https://prod.grafana.net" 0 (by decide) rfl
      (fun i hi => absurd hi (Nat.not_lt_zero i))).2 "dial tcp: no such host" rfl⟩

/-! ## Cloud stack: computed endpoints and slug validation -/

/-- C11, failing input: for the stack whose Prometheus URL is
"https://prometheus-us-central1.grafana.net", `FlattenStack` stores
"https:/prometheus-us-central1.grafana.net/api/prom" and
"https:/prometheus-us-central1.grafana.net/api/prom/push": `path.Join` cleans the two
slashes after the scheme into one, so neither value is the URL followed by "/api/prom" or
"/api/prom/push". -/
theorem flattenStack_prometheus_endpoints :
    (FlattenStack noChange sampleStack).GetString "prometheus_url" =
      "https://prometheus-us-central1.grafana.net" ∧
    (FlattenStack noChange sampleStack).GetString "prometheus_remote_endpoint" =
      "https:/prometheus-us-central1.grafana.net/api/prom" ∧
    (FlattenStack noChange sampleStack).GetString "prometheus_remote_write_endpoint" =
      "https:/prometheus-us-central1.grafana.net/api/prom/push" ∧
    (FlattenStack noChange sampleStack).GetString "prometheus_remote_endpoint" ≠
      "https://prometheus-us-central1.grafana.net" ++ "/api/prom" ∧
    (FlattenStack noChange sampleStack).GetString "prometheus_remote_write_endpoint" ≠
      "https://prometheus-us-central1.grafana.net" ++ "/api/prom/push" := by
  refine ⟨by decide, by decide, by decide, by decide, by decide⟩

/-- Membership in the class `[a-z]`. -/
theorem charClass_lower (c : Char) :
    CharClass.has [('a', 'z')] c = true ↔ ('a' ≤ c ∧ c ≤ 'z') := by
  simp [CharClass.has]

/-- Membership in the class `[a-z0-9]`. -/
theorem charClass_lower_digit (c : Char) :
    CharClass.has [('a', 'z'), ('0', '9')] c = true ↔
      (('a' ≤ c ∧ c ≤ 'z') ∨ ('0' ≤ c ∧ c ≤ '9')) := by
  simp [CharClass.has]

/-- A single `+` item before the end anchor matches exactly the non-empty texts whose
characters all lie in the class. -/
theorem matchItems_oneOrMore (cls : CharClass) (cs : List Char) :
    matchItems [(cls, .oneOrMore)] cs = true ↔ cs ≠ [] ∧ ∀ x ∈ cs, cls.has x = true := by
  induction cs with
  | nil => simp [matchItems]
  | cons c cs ih =>
    cases cs with
    | nil => simp [matchItems]
    | cons d ds =>
      rw [matchItems, Bool.and_eq_true, Bool.or_eq_true, ih]
      simp [matchItems]

/-- What `stackSlugRegex` accepts: the strings of at least two characters whose first
character is a lowercase ASCII letter and whose other characters are lowercase ASCII
letters or digits. -/
theorem stackSlugRegex_matchString_iff (s : String) :
    stackSlugRegex.MatchString s = true ↔
      ∃ c d ds, s.toList = c :: d :: ds ∧ ('a' ≤ c ∧ c ≤ 'z') ∧
        ∀ x ∈ d :: ds, ('a' ≤ x ∧ x ≤ 'z') ∨ ('0' ≤ x ∧ x ≤ '9') := by
  unfold Regexp.MatchString stackSlugRegex
  cases hs : s.toList with
  | nil => simp [matchItems]
  | cons c cs =>
    rw [matchItems, Bool.and_eq_true, matchItems_oneOrMore, charClass_lower]
    constructor
    · rintro ⟨hc, hne, hall⟩
      cases cs with
      | nil => exact absurd rfl hne
      | cons d ds =>
        exact ⟨c, d, ds, rfl, hc, fun x hx => (charClass_lower_digit x).mp (hall x hx)⟩
    · rintro ⟨c', d, ds, heq, hc, hall⟩
      injection heq with h1 h2
      subst h1 h2
      exact ⟨hc, by simp, fun x hx => (charClass_lower_digit x).mpr (hall x hx)⟩

/-- C12, failing input: the slug "a" is a non-empty string of lowercase ASCII letters and
digits whose first character is a letter, and `stackSlugRegex` rejects it: the validator
answers with its message "must be a lowercase alphanumeric string and must start with a
letter.", because the `+` of the pattern asks for a second character. -/
theorem slug_single_letter_rejected :
    lowercaseAlphanumericFromLetter "a" ∧
    stackSlugRegex.MatchString "a" = false ∧
    validateSlug "slug" "a" =
      ["invalid value for slug (must be a lowercase alphanumeric string and must start " ++
        "with a letter.)"] ∧
    stackSlugRegex.MatchString "ab" = true := by
  refine ⟨⟨'a', [], rfl, by decide, by simp⟩, by decide, by decide, by decide⟩

/-! ## `path.Join` on a URL -/

/-- One step of `path.Clean` on a slash: it is skipped. -/
theorem cleanLoop_slash (rooted : Bool) (fuel : Nat) (t out : List Char) (dotdot : Nat) :
    cleanLoop rooted (fuel + 1) ('/' :: t) out dotdot = cleanLoop rooted fuel t out dotdot := by
  simp [cleanLoop]

/-- One step of `path.Clean` on an element that is neither `.` nor `..`: the element is
copied to the output, after a slash when the output already holds an element. -/
theorem cleanLoop_element (fuel : Nat) (seg t out : List Char) (dotdot : Nat)
    (hne : seg ≠ []) (hslash : '/' ∉ seg) (hdot : seg ≠ ['.']) (hdots : seg ≠ ['.', '.'])
    (ht : t = [] ∨ t.head? = some '/') :
    cleanLoop false (fuel + 1) (seg ++ t) out dotdot =
      cleanLoop false fuel t
        (seg.reverse ++ (if out.length ≠ 0 then '/' :: out else out)) dotdot := by
  have htake : ∀ l : List Char, '/' ∉ l →
      (l ++ t).takeWhile (fun x => decide (x ≠ '/')) = l ∧
      (l ++ t).dropWhile (fun x => decide (x ≠ '/')) = t := by
    intro l hl
    induction l with
    | nil =>
      rcases ht with rfl | h
      · simp
      · cases t with
        | nil => simp
        | cons a t =>
          simp only [List.head?_cons, Option.some.injEq] at h
          subst h
          simp
    | cons a l ih =>
      have ha : a ≠ '/' := fun h => hl (by simp [h])
      have hl2 : '/' ∉ l := fun h => hl (by simp [h])
      have := ih hl2
      simp [ha] at this ⊢
      exact this
  cases seg with
  | nil => exact absurd rfl hne
  | cons c rest =>
    have hc : c ≠ '/' := fun h => hslash (by simp [h])
    have hrest : '/' ∉ rest := fun h => hslash (by simp [h])
    have h2 : ¬ (c = '.' ∧ (rest ++ t = [] ∨ (rest ++ t).head? = some '/')) := by
      rintro ⟨rfl, h⟩
      cases rest with
      | nil => exact hdot rfl
      | cons a r =>
        simp only [List.cons_append, List.head?_cons, Option.some.injEq] at h
        rcases h with h | h
        · cases h
        · exact hrest (by simp [h])
    have h3 : ¬ (c = '.' ∧ (rest ++ t).head? = some '.' ∧
        ((rest ++ t).tail = [] ∨ (rest ++ t).tail.head? = some '/')) := by
      rintro ⟨rfl, h, h'⟩
      cases rest with
      | nil => exact hdot rfl
      | cons a r =>
        simp only [List.cons_append, List.head?_cons, Option.some.injEq] at h
        subst h
        cases r with
        | nil => exact hdots rfl
        | cons b r =>
          simp only [List.cons_append, List.tail_cons, List.head?_cons,
            Option.some.injEq] at h'
          rcases h' with h' | h'
          · cases h'
          · exact hrest (by simp [h'])
    have htk := htake (c :: rest) hslash
    simp only [List.cons_append] at htk
    simp only [List.cons_append]
    generalize rest ++ t = rt at h2 h3 htk ⊢
    simp only [cleanLoop, hc, if_false, h2, h3]
    rw [htk.1, htk.2]
    simp

/-- At the end of the text `path.Clean` returns its output buffer. -/
theorem cleanLoop_nil (rooted : Bool) (fuel : Nat) (out : List Char) (dotdot : Nat) :
    cleanLoop rooted fuel [] out dotdot = out := by
  cases fuel <;> simp [cleanLoop]

/-- One step of `path.Clean` on an element followed by a slash. -/
theorem cleanLoop_element_slash (fuel : Nat) (seg t out : List Char) (dotdot : Nat)
    (hne : seg ≠ []) (hslash : '/' ∉ seg) (hdot : seg ≠ ['.']) (hdots : seg ≠ ['.', '.']) :
    cleanLoop false (fuel + 1) (seg ++ '/' :: t) out dotdot =
      cleanLoop false fuel ('/' :: t)
        (seg.reverse ++ (if out.length ≠ 0 then '/' :: out else out)) dotdot :=
  cleanLoop_element fuel seg ('/' :: t) out dotdot hne hslash hdot hdots (Or.inr rfl)

/-- One step of `path.Clean` on the last element of the text. -/
theorem cleanLoop_element_end (fuel : Nat) (seg out : List Char) (dotdot : Nat)
    (hne : seg ≠ []) (hslash : '/' ∉ seg) (hdot : seg ≠ ['.']) (hdots : seg ≠ ['.', '.']) :
    cleanLoop false (fuel + 1) (seg ++ []) out dotdot =
      seg.reverse ++ (if out.length ≠ 0 then '/' :: out else out) := by
  rw [cleanLoop_element fuel seg [] out dotdot hne hslash hdot hdots (Or.inl rfl),
    cleanLoop_nil]

/-- The loop of `path.Clean` on `https://` followed by a host and the elements `api` and
`prom`: the two slashes after the scheme are skipped and a single slash is written. -/
theorem cleanLoop_https_host (h : List Char) (hne : h ≠ []) (hslash : '/' ∉ h)
    (hdot : h ≠ ['.']) (hdots : h ≠ ['.', '.']) (fuel : Nat) (hfuel : 8 ≤ fuel) :
    cleanLoop false fuel
        ('h' :: 't' :: 't' :: 'p' :: 's' :: ':' :: '/' :: '/' ::
          (h ++ ['/', 'a', 'p', 'i', '/', 'p', 'r', 'o', 'm']))
        [] 0 =
      (['h', 't', 't', 'p', 's', ':', '/'] ++ h ++
        ['/', 'a', 'p', 'i', '/', 'p', 'r', 'o', 'm']).reverse := by
  obtain ⟨k, rfl⟩ : ∃ k, fuel = k + 1 + 1 + 1 + 1 + 1 + 1 + 1 + 1 := ⟨fuel - 8, by omega⟩
  show cleanLoop false (k + 1 + 1 + 1 + 1 + 1 + 1 + 1 + 1)
      (['h', 't', 't', 'p', 's', ':'] ++ '/' :: '/' :: (h ++ '/' :: (['a', 'p', 'i'] ++
        '/' :: (['p', 'r', 'o', 'm'] ++ [])))) [] 0 = _
  rw [cleanLoop_element_slash _ ['h', 't', 't', 'p', 's', ':'] _ _ _ (by decide) (by decide)
    (by decide) (by decide)]
  rw [cleanLoop_slash, cleanLoop_slash]
  rw [cleanLoop_element_slash _ h _ _ _ hne hslash hdot hdots]
  rw [cleanLoop_slash]
  rw [cleanLoop_element_slash _ ['a', 'p', 'i'] _ _ _ (by decide) (by decide)
    (by decide) (by decide)]
  rw [cleanLoop_slash]
  rw [cleanLoop_element_end _ ['p', 'r', 'o', 'm'] _ _ (by decide) (by decide)
    (by decide) (by decide)]
  simp

/-- `path.Join` of two elements, the first of them non-empty: the elements are joined
with a slash and cleaned. -/
theorem pathJoin_pair (a b : List Char) (ha : a ≠ []) :
    pathJoin [String.mk a, String.mk b] = pathClean (String.mk (a ++ '/' :: b)) := by
  have happ : ∀ x y : List Char, String.mk x ++ String.mk y = String.mk (x ++ y) :=
    fun _ _ => rfl
  have hmk : ∀ x : List Char, String.mk x = String.mk [] ↔ x = [] := by
    intro x
    constructor
    · intro h
      exact congrArg String.data h
    · rintro rfl
      rfl
  have hlen : ∀ x : List Char, (String.mk x).length = x.length := fun _ => rfl
  have e5 : ("/" : String) = String.mk ['/'] := rfl
  have e6 : ("" : String) = String.mk [] := rfl
  have hpos : 0 < a.length := List.length_pos.mpr ha
  have hsum : ¬ (a.length + (b.length + 0) = 0) := by omega
  unfold pathJoin
  simp only [List.map, List.sum_cons, List.sum_nil, List.foldl, e5, e6, hlen, hsum, if_false,
    List.length_nil, gt_iff_lt, lt_self_iff_false, false_or, ne_eq, hmk, ha,
    not_false_eq_true, if_true, happ, List.nil_append, hpos, true_or]
  simp

/-- `path.Join` of `https://host` and `api/prom`, for every host that is a single path
element other than `.` and `..`: the result has one slash after the scheme. -/
theorem pathJoin_https_host (h : List Char) (hne : h ≠ []) (hslash : '/' ∉ h)
    (hdot : h ≠ ['.']) (hdots : h ≠ ['.', '.']) :
    pathJoin [String.mk ("https://".toList ++ h), "api/prom"] =
      String.mk ("https:/".toList ++ h ++ "/api/prom".toList) := by
  have e1 : "https://".toList = ['h', 't', 't', 'p', 's', ':', '/', '/'] := rfl
  have e2 : "https:/".toList = ['h', 't', 't', 'p', 's', ':', '/'] := rfl
  have e3 : "/api/prom".toList = ['/', 'a', 'p', 'i', '/', 'p', 'r', 'o', 'm'] := rfl
  have e4 : ("api/prom" : String) = String.mk ['a', 'p', 'i', '/', 'p', 'r', 'o', 'm'] := rfl
  rw [e1, e2, e3, e4, pathJoin_pair _ _ (by simp)]
  unfold pathClean
  simp only [String.toList, List.cons_append, List.nil_append, List.append_assoc]
  rw [if_neg (by decide : ¬ ('h' = '/'))]
  rw [cleanLoop_https_host h hne hslash hdot hdots _ (by simp)]
  simp
/-- The loop of `path.Clean` on `https://` followed by a host and the elements `api`,
`prom` and `push`. -/
theorem cleanLoop_https_host_push (h : List Char) (hne : h ≠ []) (hslash : '/' ∉ h)
    (hdot : h ≠ ['.']) (hdots : h ≠ ['.', '.']) (fuel : Nat) (hfuel : 10 ≤ fuel) :
    cleanLoop false fuel
        ('h' :: 't' :: 't' :: 'p' :: 's' :: ':' :: '/' :: '/' ::
          (h ++ ['/', 'a', 'p', 'i', '/', 'p', 'r', 'o', 'm', '/', 'p', 'u', 's', 'h']))
        [] 0 =
      (['h', 't', 't', 'p', 's', ':', '/'] ++ h ++
        ['/', 'a', 'p', 'i', '/', 'p', 'r', 'o', 'm', '/', 'p', 'u', 's', 'h']).reverse := by
  obtain ⟨k, rfl⟩ : ∃ k, fuel = k + 1 + 1 + 1 + 1 + 1 + 1 + 1 + 1 + 1 + 1 :=
    ⟨fuel - 10, by omega⟩
  show cleanLoop false (k + 1 + 1 + 1 + 1 + 1 + 1 + 1 + 1 + 1 + 1)
      (['h', 't', 't', 'p', 's', ':'] ++ '/' :: '/' :: (h ++ '/' :: (['a', 'p', 'i'] ++
        '/' :: (['p', 'r', 'o', 'm'] ++ '/' :: (['p', 'u', 's', 'h'] ++ []))))) [] 0 = _
  rw [cleanLoop_element_slash _ ['h', 't', 't', 'p', 's', ':'] _ _ _ (by decide) (by decide)
    (by decide) (by decide)]
  rw [cleanLoop_slash, cleanLoop_slash]
  rw [cleanLoop_element_slash _ h _ _ _ hne hslash hdot hdots]
  rw [cleanLoop_slash]
  rw [cleanLoop_element_slash _ ['a', 'p', 'i'] _ _ _ (by decide) (by decide)
    (by decide) (by decide)]
  rw [cleanLoop_slash]
  rw [cleanLoop_element_slash _ ['p', 'r', 'o', 'm'] _ _ _ (by decide) (by decide)
    (by decide) (by decide)]
  rw [cleanLoop_slash]
  rw [cleanLoop_element_end _ ['p', 'u', 's', 'h'] _ _ (by decide) (by decide)
    (by decide) (by decide)]
  simp

/-- `path.Join` of `https://host` and `api/prom/push`, for every host that is a single
path element other than `.` and `..`: the result has one slash after the scheme. -/
theorem pathJoin_https_host_push (h : List Char) (hne : h ≠ []) (hslash : '/' ∉ h)
    (hdot : h ≠ ['.']) (hdots : h ≠ ['.', '.']) :
    pathJoin [String.mk ("https://".toList ++ h), "api/prom/push"] =
      String.mk ("https:/".toList ++ h ++ "/api/prom/push".toList) := by
  have e1 : "https://".toList = ['h', 't', 't', 'p', 's', ':', '/', '/'] := rfl
  have e2 : "https:/".toList = ['h', 't', 't', 'p', 's', ':', '/'] := rfl
  have e3 : "/api/prom/push".toList =
      ['/', 'a', 'p', 'i', '/', 'p', 'r', 'o', 'm', '/', 'p', 'u', 's', 'h'] := rfl
  have e4 : ("api/prom/push" : String) =
      String.mk ['a', 'p', 'i', '/', 'p', 'r', 'o', 'm', '/', 'p', 'u', 's', 'h'] := rfl
  rw [e1, e2, e3, e4, pathJoin_pair _ _ (by simp)]
  unfold pathClean
  simp only [String.toList, List.cons_append, List.nil_append, List.append_assoc]
  rw [if_neg (by decide : ¬ ('h' = '/'))]
  rw [cleanLoop_https_host_push h hne hslash hdot hdots _ (by simp)]
  simp

/-- For every stack whose Prometheus URL is `https://` followed by a host (a non-empty
single path element other than `.` and `..`), `FlattenStack` stores the two Prometheus
endpoints with a single slash after the scheme; neither is the URL followed by
"/api/prom" or "/api/prom/push". -/
theorem flattenStack_prometheus_endpoints_https (d : ResourceData) (stack : Stack)
    (h : List Char) (hurl : stack.HmInstancePromURL = String.mk ("https://".toList ++ h))
    (hne : h ≠ []) (hslash : '/' ∉ h) (hdot : h ≠ ['.']) (hdots : h ≠ ['.', '.']) :
    (FlattenStack d stack).GetString "prometheus_remote_endpoint" =
      String.mk ("https:/".toList ++ h ++ "/api/prom".toList) ∧
    (FlattenStack d stack).GetString "prometheus_remote_write_endpoint" =
      String.mk ("https:/".toList ++ h ++ "/api/prom/push".toList) ∧
    (FlattenStack d stack).GetString "prometheus_remote_endpoint" ≠
      stack.HmInstancePromURL ++ "/api/prom" ∧
    (FlattenStack d stack).GetString "prometheus_remote_write_endpoint" ≠
      stack.HmInstancePromURL ++ "/api/prom/push" := by
  have h1 : (FlattenStack d stack).GetString "prometheus_remote_endpoint" =
      pathJoin [stack.HmInstancePromURL, "api/prom"] := by
    simp [FlattenStack, ResourceData.GetString, ResourceData.Get, ResourceData.Set,
      ResourceData.SetId, List.lookup]
  have h2 : (FlattenStack d stack).GetString "prometheus_remote_write_endpoint" =
      pathJoin [stack.HmInstancePromURL, "api/prom/push"] := by
    simp [FlattenStack, ResourceData.GetString, ResourceData.Get, ResourceData.Set,
      ResourceData.SetId, List.lookup]
  rw [h1, h2, hurl, pathJoin_https_host h hne hslash hdot hdots,
    pathJoin_https_host_push h hne hslash hdot hdots]
  refine ⟨rfl, rfl, ?_, ?_⟩
  · intro heq
    have := congrArg String.data heq
    simp at this
  · intro heq
    have := congrArg String.data heq
    simp at this

end Grafana
